import Mathlib

/-!
Verification of the selfbot gateway/rate-limiter core.

Shallow embedding of `src/selfcord/utils.py` (class `RateLimiter`),
`src/selfcord/gateway.py` (class `GatewayHandler`) and the relevant lines of
`src/selfcord/bot.py` (class `DiscordUser`).  Timestamps and durations are
modelled as rationals; Python dictionaries with optional keys become
structures with `Option` fields.
-/

namespace Selfbot

/-! ### RateLimiter (utils.py, lines 92-111)

`wait_if_needed` prunes the bucket list with `now - t < window`, and when the
pruned list has at least `max_requests` entries it sleeps
`window - (now - min(requests))` seconds before appending a fresh
`time.time()` reading.  A call is modelled by the pair `(now, tAfter)` of the
two `time.time()` readings; the sleep is captured by the side condition
`sleepOk` and monotonicity of the clock by `clock ≤ now ≤ tAfter`. -/

/-- Python `min` on a nonempty list of rationals (the empty case is never
reached when `max_requests > 0`). -/
def listMin : List ℚ → ℚ
  | [] => 0
  | [x] => x
  | x :: y :: xs => min x (listMin (y :: xs))

/-- Line 106: `bucket['requests'] = [t for t in bucket['requests'] if now - t < window]`. -/
def pruneRequests (window now : ℚ) (requests : List ℚ) : List ℚ :=
  requests.filter (fun t => decide (now - t < window))

/-- Effect of one `wait_if_needed` call on the bucket list: prune (line 106),
then append the post-sleep `time.time()` reading (line 111). -/
def wait_if_needed_step (window : ℚ) (requests : List ℚ) (now tAfter : ℚ) : List ℚ :=
  pruneRequests window now requests ++ [tAfter]

/-- Timing constraint of lines 107-111: when the pruned list has at least
`maxRequests` entries the caller sleeps `window - (now - min)` seconds, so
the appended timestamp is at least `min + window`. -/
def sleepOk (maxRequests : ℕ) (window : ℚ) (requests : List ℚ) (now tAfter : ℚ) : Bool :=
  let pruned := pruneRequests window now requests
  if maxRequests ≤ pruned.length then decide (listMin pruned + window ≤ tAfter) else true

/-- A sequence of `wait_if_needed` calls on one bucket is valid when the
clock readings are monotone (`clock ≤ now ≤ tAfter`) and each call respects
the sleep performed by the code. -/
def validTrace (maxRequests : ℕ) (window : ℚ) : ℚ → List ℚ → List (ℚ × ℚ) → Bool
  | _, _, [] => true
  | clock, requests, (now, tAfter) :: rest =>
    decide (clock ≤ now) && decide (now ≤ tAfter) &&
      sleepOk maxRequests window requests now tAfter &&
      validTrace maxRequests window tAfter (wait_if_needed_step window requests now tAfter) rest

/-- The admission timestamps of a trace: the value appended on return of each
call (line 111). -/
def admissions (trace : List (ℚ × ℚ)) : List ℚ := trace.map Prod.snd

/-- Number of timestamps of `l` in the half-open interval `(x, x + window]`. -/
def windowCount (window x : ℚ) (l : List ℚ) : ℕ :=
  l.countP (fun t => decide (x < t ∧ t ≤ x + window))

/-- Bucket list after running a trace of calls. -/
def finalBucket (window : ℚ) : List ℚ → List (ℚ × ℚ) → List ℚ
  | requests, [] => requests
  | requests, (now, tAfter) :: rest =>
    finalBucket window (wait_if_needed_step window requests now tAfter) rest

/-- Last post-call clock reading of a trace. -/
def finalClock : ℚ → List (ℚ × ℚ) → ℚ
  | clock, [] => clock
  | _, (_, tAfter) :: rest => finalClock tAfter rest

/-- Prune threshold of the last executed call. -/
def finalCutoff : ℚ → List (ℚ × ℚ) → ℚ
  | c, [] => c
  | _, (now, _) :: rest => finalCutoff now rest

theorem listMin_mem : ∀ (l : List ℚ), l ≠ [] → listMin l ∈ l
  | [x], _ => by simp [listMin]
  | x :: y :: xs, _ => by
    have ih := listMin_mem (y :: xs) (by simp)
    rw [listMin]
    rcases min_cases x (listMin (y :: xs)) with h | h
    · rw [h.1]; exact List.mem_cons_self x _
    · rw [h.1]; exact List.mem_cons_of_mem x ih

theorem countP_lt_length_of_mem {l : List ℚ} {p : ℚ → Bool} {a : ℚ}
    (ha : a ∈ l) (hpa : p a = false) : l.countP p < l.length := by
  induction l with
  | nil => cases ha
  | cons b bs ih =>
    rcases List.mem_cons.mp ha with rfl | hmem
    · rw [List.countP_cons, hpa]
      have := List.countP_le_length (l := bs) (p := p)
      simp only [List.length_cons, Bool.false_eq_true, if_false]
      omega
    · rw [List.countP_cons, List.length_cons]
      have := ih hmem
      rcases Bool.eq_false_or_eq_true (p b) with hb | hb <;> simp [hb] <;> omega

theorem validTrace_append_left {N : ℕ} {W : ℚ} :
    ∀ (σ₁ σ₂ : List (ℚ × ℚ)) (clock : ℚ) (requests : List ℚ),
      validTrace N W clock requests (σ₁ ++ σ₂) = true →
      validTrace N W clock requests σ₁ = true
  | [], _, _, _, _ => rfl
  | (now, tAfter) :: rest, σ₂, clock, requests, h => by
    rw [List.cons_append, validTrace, Bool.and_eq_true, Bool.and_eq_true, Bool.and_eq_true] at h
    rw [validTrace, Bool.and_eq_true, Bool.and_eq_true, Bool.and_eq_true]
    exact ⟨h.1, validTrace_append_left rest σ₂ _ _ h.2⟩

theorem prune_collapse {W c now : ℚ} (hcn : c ≤ now) (A : List ℚ) :
    (A.filter (fun t => decide (c - t < W))).filter (fun t => decide (now - t < W)) =
      A.filter (fun t => decide (now - t < W)) := by
  rw [List.filter_filter]
  apply List.filter_congr
  intro a _
  by_cases h1 : now - a < W
  · have h2 : c - a < W := by linarith
    simp [h1, h2]
  · simp [h1]

theorem rl_invariant (N : ℕ) (W : ℚ) (hN : 0 < N) (hW : 0 < W) :
    ∀ (σ : List (ℚ × ℚ)) (A : List ℚ) (clock c : ℚ),
      (∀ a ∈ A, a ≤ clock) →
      c ≤ clock →
      (∀ x, windowCount W x A ≤ N) →
      validTrace N W clock (A.filter (fun t => decide (c - t < W))) σ = true →
      (∀ x, windowCount W x (A ++ admissions σ) ≤ N) ∧
      (∀ a ∈ A ++ admissions σ, a ≤ finalClock clock σ) ∧
      finalBucket W (A.filter (fun t => decide (c - t < W))) σ =
        (A ++ admissions σ).filter (fun t => decide (finalCutoff c σ - t < W)) ∧
      finalCutoff c σ ≤ finalClock clock σ := by
  intro σ
  induction σ with
  | nil =>
    intro A clock c hA hc hwin _
    refine ⟨?_, ?_, ?_, ?_⟩
    · simpa [admissions] using hwin
    · simpa [admissions, finalClock] using hA
    · simp [admissions, finalBucket, finalCutoff]
    · simpa [finalCutoff, finalClock] using hc
  | cons hd rest ih =>
    obtain ⟨now, tAfter⟩ := hd
    intro A clock c hA hc hwin hval
    simp only [validTrace, Bool.and_eq_true, decide_eq_true_eq] at hval
    obtain ⟨⟨⟨hclock, hnt⟩, hsleep⟩, hrest⟩ := hval
    have hcn : c ≤ now := le_trans hc hclock
    -- collapse the double prune
    have hcol : pruneRequests W now (A.filter (fun t => decide (c - t < W))) =
        A.filter (fun t => decide (now - t < W)) := prune_collapse hcn A
    set prA := A.filter (fun t => decide (now - t < W)) with hprA
    have hprAlen : prA.length = A.countP (fun t => decide (now - t < W)) :=
      (List.countP_eq_length_filter _ _).symm
    -- the pruned list fits in the window (now - W, now]
    have hprAle : prA.length ≤ N := by
      rw [hprAlen]
      have hmono : A.countP (fun t => decide (now - t < W)) ≤ windowCount W (now - W) A := by
        apply List.countP_mono_left
        intro a ha h
        simp only [decide_eq_true_eq] at h ⊢
        have := hA a ha
        constructor <;> linarith
      exact le_trans hmono (hwin (now - W))
    -- the new bucket list is again a filtered admission log
    have hstep : wait_if_needed_step W (A.filter (fun t => decide (c - t < W))) now tAfter =
        (A ++ [tAfter]).filter (fun t => decide (now - t < W)) := by
      rw [wait_if_needed_step, hcol, List.filter_append]
      have : decide (now - tAfter < W) = true := by
        simp only [decide_eq_true_eq]; linarith
      simp [this]
    -- the window invariant for the extended admission log
    have hwin' : ∀ x, windowCount W x (A ++ [tAfter]) ≤ N := by
      intro x
      rw [windowCount, List.countP_append]
      by_cases hx : x < tAfter ∧ tAfter ≤ x + W
      · have hxW : tAfter - W ≤ x := by linarith [hx.2]
        have hlt : windowCount W x A < N := by
          by_cases hge : N ≤ prA.length
          · -- the call slept until the oldest pruned entry left the window
            have hs : decide (listMin prA + W ≤ tAfter) = true := by
              rw [sleepOk, hcol] at hsleep
              simpa [hge] using hsleep
            have hm : listMin prA + W ≤ tAfter := of_decide_eq_true hs
            have hne : prA ≠ [] := by
              intro h
              rw [h] at hge
              simp at hge
              omega
            have hmem := listMin_mem prA hne
            set m := listMin prA with hmdef
            have hmW : now - m < W := by
              have := (List.mem_filter.mp hmem).2
              simpa using this
            have hmx : m ≤ x := by linarith [hx.2]
            have step1 : windowCount W x A ≤
                A.countP (fun t => decide (m < t) && decide (now - t < W)) := by
              apply List.countP_mono_left
              intro a _ h
              simp only [decide_eq_true_eq] at h
              simp only [Bool.and_eq_true, decide_eq_true_eq]
              exact ⟨lt_of_le_of_lt hmx h.1, by linarith [h.1]⟩
            have step2 : prA.countP (fun t => decide (m < t)) =
                A.countP (fun t => decide (m < t) && decide (now - t < W)) := by
              rw [hprA]
              exact List.countP_filter _ _ A
            have step3 : prA.countP (fun t => decide (m < t)) < prA.length :=
              countP_lt_length_of_mem hmem (by simp)
            calc windowCount W x A
                ≤ A.countP (fun t => decide (m < t) && decide (now - t < W)) := step1
              _ = prA.countP (fun t => decide (m < t)) := step2.symm
              _ < prA.length := step3
              _ ≤ N := hprAle
          · push_neg at hge
            have hmono : windowCount W x A ≤ A.countP (fun t => decide (now - t < W)) := by
              apply List.countP_mono_left
              intro a _ h
              simp only [decide_eq_true_eq] at h ⊢
              linarith [h.1]
            rw [← hprAlen] at hmono
            exact lt_of_le_of_lt hmono hge
        have hone : List.countP (fun t => decide (x < t ∧ t ≤ x + W)) [tAfter] ≤ 1 := by
          simp only [List.countP_cons, List.countP_nil]
          split <;> omega
        simp only [windowCount] at hlt
        omega
      · have hzero : List.countP (fun t => decide (x < t ∧ t ≤ x + W)) [tAfter] = 0 := by
          simp [List.countP_cons, hx]
        rw [hzero]
        simpa [windowCount] using hwin x
    have hA' : ∀ a ∈ A ++ [tAfter], a ≤ tAfter := by
      intro a ha
      rcases List.mem_append.mp ha with h | h
      · exact le_trans (hA a h) (le_trans hclock hnt)
      · simp only [List.mem_singleton] at h
        exact le_of_eq h
    have hval' : validTrace N W tAfter
        ((A ++ [tAfter]).filter (fun t => decide (now - t < W))) rest = true := by
      rw [← hstep]; exact hrest
    obtain ⟨c1, c2, c3, c4⟩ := ih (A ++ [tAfter]) tAfter now hA' hnt hwin' hval'
    have hadm : A ++ admissions ((now, tAfter) :: rest) =
        (A ++ [tAfter]) ++ admissions rest := by
      simp [admissions, List.append_assoc]
    refine ⟨?_, ?_, ?_, ?_⟩
    · intro x
      rw [hadm]
      exact c1 x
    · intro a ha
      rw [hadm] at ha
      simpa [finalClock] using c2 a ha
    · show finalBucket W (wait_if_needed_step W (A.filter (fun t => decide (c - t < W))) now tAfter) rest = _
      rw [hstep, hadm]
      simpa [finalCutoff] using c3
    · simpa [finalCutoff, finalClock] using c4

/-- Claim C1: for every valid sequence of `RateLimiter.wait_if_needed` calls on a
single bucket with cap `N` and window `W`, every time interval of length `W`
contains at most `N` admissions (an admission being the timestamp appended on
return), and the bucket list held after any prefix of the calls never contains
more than `N` timestamps younger than `W`. -/
theorem rate_limiter_sliding_window (N : ℕ) (W : ℚ) (c₀ : ℚ) (σ : List (ℚ × ℚ))
    (hN : 0 < N) (hW : 0 < W) (hv : validTrace N W c₀ [] σ = true) :
    (∀ x, windowCount W x (admissions σ) ≤ N) ∧
    (∀ σ₁ σ₂, σ = σ₁ ++ σ₂ → ∀ x, finalClock c₀ σ₁ ≤ x →
      ((finalBucket W [] σ₁).filter (fun t => decide (x - t < W))).length ≤ N) := by
  have hmain : ∀ τ : List (ℚ × ℚ), validTrace N W c₀ [] τ = true →
      (∀ x, windowCount W x (admissions τ) ≤ N) ∧
      (∀ x, finalClock c₀ τ ≤ x →
        ((finalBucket W [] τ).filter (fun t => decide (x - t < W))).length ≤ N) := by
    intro τ hτ
    have hstart : ([] : List ℚ) = ([] : List ℚ).filter (fun t => decide (c₀ - t < W)) := rfl
    have h := rl_invariant N W hN hW τ [] c₀ c₀ (by intro a ha; cases ha) le_rfl
      (by intro x; simp [windowCount]) (by rw [← hstart]; exact hτ)
    obtain ⟨h1, h2, h3, h4⟩ := h
    refine ⟨by simpa using h1, ?_⟩
    intro x hx
    rw [hstart, h3, List.filter_filter, ← List.countP_eq_length_filter]
    have hmono : (admissions τ).countP
        (fun t => decide (x - t < W) && decide (finalCutoff c₀ τ - t < W)) ≤
        windowCount W (x - W) (admissions τ) := by
      apply List.countP_mono_left
      intro a ha hcond
      simp only [Bool.and_eq_true, decide_eq_true_eq] at hcond
      have hle : a ≤ finalClock c₀ τ := h2 a (by simpa using ha)
      simp only [decide_eq_true_eq]
      constructor <;> linarith [hcond.1]
    have := h1 (x - W)
    simp only [List.nil_append] at hmono this ⊢
    exact le_trans hmono (by simpa using this)
  refine ⟨(hmain σ hv).1, ?_⟩
  intro σ₁ σ₂ hsplit x hx
  have hv₁ : validTrace N W c₀ [] σ₁ = true :=
    validTrace_append_left σ₁ σ₂ c₀ [] (by rw [← hsplit]; exact hv)
  exact (hmain σ₁ hv₁).2 x hx

theorem rate_limiter_sliding_window_instance :
    (∀ x, windowCount 5 x (admissions [((0 : ℚ), (0 : ℚ)), (0, 0), (1, 6)]) ≤ 2) ∧
    (∀ σ₁ σ₂, [((0 : ℚ), (0 : ℚ)), (0, 0), (1, 6)] = σ₁ ++ σ₂ →
      ∀ x, finalClock 0 σ₁ ≤ x →
        ((finalBucket 5 [] σ₁).filter (fun t => decide (x - t < 5))).length ≤ 2) :=
  rate_limiter_sliding_window 2 5 0 [((0 : ℚ), (0 : ℚ)), (0, 0), (1, 6)]
    (by norm_num) (by norm_num)
    (by norm_num [validTrace, sleepOk, pruneRequests, wait_if_needed_step, listMin])

/-! ### GatewayHandler (gateway.py)

State fields of `GatewayHandler.__init__` that the protocol logic touches.
`time`-valued fields are rationals; `session_id`/`sequence` are optional as
in the Python (`None` becomes `none`). -/

structure GatewayState where
  session_id : Option String
  sequence : Option Int
  heartbeat_interval : Option ℚ
  last_heartbeat_ack : Bool
  reconnect_attempts : ℕ
deriving DecidableEq

/-- `__init__` defaults (gateway.py lines 14-19). -/
def initGatewayState : GatewayState :=
  { session_id := none, sequence := none, heartbeat_interval := none,
    last_heartbeat_ack := true, reconnect_attempts := 0 }

/-- gateway.py line 20. -/
def max_reconnect_attempts : ℕ := 5

/-- A decoded inbound frame `{op, d, s, t}`.  Of the payload `d` only the
`heartbeat_interval` key is ever read by `_handle_message` (op 10);
`d_heartbeat_interval = none` models a HELLO payload lacking that key. -/
structure Frame where
  op : Option Int
  d_heartbeat_interval : Option ℚ
  s : Option Int
  t : Option String
deriving DecidableEq

/-- Outbound control payloads built by `_send_heartbeat` (op 1), `_identify`
(op 2) and `_resume` (op 6), with the `d` fields the code fills in. -/
inductive OutPayload where
  | heartbeat (d : Option Int)
  | identify
  | resume (session_id : String) (seq : Option Int)
deriving DecidableEq

/-- The `op` field serialized for each outbound payload. -/
def OutPayload.opcode : OutPayload → Int
  | .heartbeat _ => 1
  | .identify => 2
  | .resume _ _ => 6

/-- Observable effects of `_handle_message`. -/
inductive Action where
  | dispatchEvent (t : Option String)
  | send (p : OutPayload)
  | closeConn
  | sleepFor (seconds : ℚ)
  | startHeartbeatLoop
deriving DecidableEq

/-- Python truthiness of `self.session_id` (line 97 `if self.session_id:`):
`None` and the empty string are falsy. -/
def pyTruthy : Option String → Bool
  | none => false
  | some s => !(s == "")

/-- Lines 77-78: `if s is not None: self.sequence = s`. -/
def update_sequence (st : GatewayState) (f : Frame) : GatewayState :=
  match f.s with
  | some v => { st with sequence := some v }
  | none => st

/-- `_handle_message` (lines 72-103) as a state transition.  The `.error`
result models the `KeyError`/`TypeError` raised by `d['heartbeat_interval']`
on a HELLO whose payload lacks the key; it carries the state at the raise
point (the sequence update has already happened). -/
def handle_message (st : GatewayState) (f : Frame) :
    Except GatewayState (GatewayState × List Action) :=
  let st1 := update_sequence st f
  if f.op = some 0 then
    .ok (st1, [.dispatchEvent f.t])
  else if f.op = some 1 then
    .ok ({ st1 with last_heartbeat_ack := false }, [.send (.heartbeat st1.sequence)])
  else if f.op = some 7 then
    .ok (st1, [.closeConn])
  else if f.op = some 9 then
    .ok ({ st1 with session_id := none, sequence := none }, [.sleepFor 5, .send .identify])
  else if f.op = some 10 then
    match f.d_heartbeat_interval with
    | none => .error st1
    | some hb =>
      let st2 := { st1 with heartbeat_interval := some (hb / 1000) }
      if pyTruthy st2.session_id then
        .ok (st2, [.startHeartbeatLoop, .send (.resume (st2.session_id.getD "") st2.sequence)])
      else
        .ok (st2, [.startHeartbeatLoop, .send .identify])
  else if f.op = some 11 then
    .ok ({ st1 with last_heartbeat_ack := true }, [])
  else
    .ok (st1, [])

/-- Claim C4: handling an INVALID SESSION frame (op 9) from any state unsets
both `session_id` and `sequence`, sleeps 5 seconds, and the only outbound
control payload emitted is identify (op 2) — never resume — regardless of the
prior `session_id`. -/
theorem invalid_session_clears_and_reidentifies (st : GatewayState) (f : Frame)
    (h : f.op = some 9) :
    ∃ st' acts, handle_message st f = .ok (st', acts) ∧
      st'.session_id = none ∧ st'.sequence = none ∧
      Action.sleepFor 5 ∈ acts ∧ Action.send .identify ∈ acts ∧
      (∀ p, Action.send p ∈ acts → p = .identify) ∧
      OutPayload.identify.opcode = 2 := by
  refine ⟨{ update_sequence st f with session_id := none, sequence := none },
    [.sleepFor 5, .send .identify], ?_, rfl, rfl, ?_, ?_, ?_, rfl⟩
  · simp [handle_message, h]
  · simp
  · simp
  · intro p hp
    simp only [List.mem_cons, List.not_mem_nil, or_false] at hp
    rcases hp with h1 | h1 <;> simp_all

/-- A sample mid-session state: a session is established and a sequence was
seen. -/
def sampleSessionState : GatewayState :=
  { session_id := some "abc", sequence := some 41, heartbeat_interval := some (165/4),
    last_heartbeat_ack := true, reconnect_attempts := 0 }

/-- A sample INVALID SESSION frame carrying a sequence number. -/
def sampleInvalidSessionFrame : Frame :=
  { op := some 9, d_heartbeat_interval := none, s := some 42, t := none }

theorem invalid_session_clears_and_reidentifies_instance :
    ∃ st' acts,
      handle_message sampleSessionState sampleInvalidSessionFrame = .ok (st', acts) ∧
      st'.session_id = none ∧ st'.sequence = none ∧
      Action.sleepFor 5 ∈ acts ∧ Action.send .identify ∈ acts ∧
      (∀ p, Action.send p ∈ acts → p = .identify) ∧
      OutPayload.identify.opcode = 2 :=
  invalid_session_clears_and_reidentifies sampleSessionState sampleInvalidSessionFrame rfl

/-- A state whose `session_id` is the empty string: non-null, but falsy for
the `if self.session_id:` test on line 97. -/
def emptySessionState : GatewayState :=
  { session_id := some "", sequence := some 3, heartbeat_interval := none,
    last_heartbeat_ack := true, reconnect_attempts := 0 }

/-- A HELLO frame with `heartbeat_interval` 41250 ms. -/
def sampleHelloFrame : Frame :=
  { op := some 10, d_heartbeat_interval := some 41250, s := none, t := none }

/-- Claim C5 counterexample: handling HELLO in a state whose `session_id` is
the non-null value `some ""` emits identify, not resume — line 97 tests
Python truthiness, not `is not None`, so an empty-string session id falls
through to `_identify`. -/
theorem hello_nonnull_session_identify_cex :
    handle_message emptySessionState sampleHelloFrame =
      .ok ({ emptySessionState with heartbeat_interval := some (41250 / 1000) },
        [.startHeartbeatLoop, .send .identify]) ∧
    emptySessionState.session_id ≠ none ∧
    Action.send (.resume "" (some 3)) ∉
      [Action.startHeartbeatLoop, Action.send OutPayload.identify] := by
  refine ⟨?_, by simp [emptySessionState], by decide⟩
  simp [handle_message, emptySessionState, sampleHelloFrame, update_sequence, pyTruthy]

/-- Claim C5 (amended): on HELLO with a pre-existing non-empty `session_id`,
the outbound control payload is resume (op 6) carrying exactly that
session id and the stored sequence (as updated by the frame's `s` field);
identify is sent instead exactly when `session_id` is unset or empty. -/
theorem hello_with_session_sends_resume (st : GatewayState) (f : Frame) (hb : ℚ)
    (sid : String) (hop : f.op = some 10) (hd : f.d_heartbeat_interval = some hb)
    (hsid : st.session_id = some sid) (hne : sid ≠ "") :
    handle_message st f =
      .ok ({ update_sequence st f with heartbeat_interval := some (hb / 1000) },
        [.startHeartbeatLoop,
         .send (.resume sid (update_sequence st f).sequence)]) ∧
    (OutPayload.resume sid (update_sequence st f).sequence).opcode = 6 := by
  have hsid1 : (update_sequence st f).session_id = some sid := by
    unfold update_sequence
    cases f.s <;> simpa using hsid
  have htruthy : pyTruthy (some sid) = true := by
    rw [pyTruthy]
    simpa using hne
  refine ⟨?_, rfl⟩
  simp only [handle_message, hop, hd]
  norm_num [hsid1, htruthy, Option.getD_some]

theorem hello_with_session_sends_resume_instance :
    handle_message sampleSessionState sampleHelloFrame =
      .ok ({ update_sequence sampleSessionState sampleHelloFrame with
              heartbeat_interval := some (41250 / 1000) },
        [.startHeartbeatLoop,
         .send (.resume "abc" (update_sequence sampleSessionState sampleHelloFrame).sequence)]) ∧
    (OutPayload.resume "abc"
      (update_sequence sampleSessionState sampleHelloFrame).sequence).opcode = 6 :=
  hello_with_session_sends_resume sampleSessionState sampleHelloFrame 41250 "abc"
    rfl rfl rfl (by decide)

/-- A DISPATCH frame whose sequence number 3 is smaller than an already
stored sequence. -/
def sampleRegressFrame : Frame :=
  { op := some 0, d_heartbeat_interval := none, s := some 3, t := some "MESSAGE_CREATE" }

/-- Claim C9 counterexample: in the mid-session state with stored sequence 41,
a handled DISPATCH frame carrying `s = 3` overwrites the stored sequence with
3 — the stored sequence after handling is smaller than before, so it is not
monotonically non-decreasing over arbitrary handled frames. -/
theorem sequence_regression_cex :
    handle_message sampleSessionState sampleRegressFrame =
      .ok ({ sampleSessionState with sequence := some 3 },
        [.dispatchEvent (some "MESSAGE_CREATE")]) ∧
    sampleSessionState.sequence = some 41 ∧ ¬ ((41 : Int) ≤ 3) := by
  refine ⟨?_, rfl, by decide⟩
  simp [handle_message, sampleSessionState, sampleRegressFrame, update_sequence]

/-- Claim C9 (amended): for every handled frame carrying a non-null `s` other
than INVALID SESSION, the stored sequence after handling equals exactly the
frame's `s` — lines 77-78 overwrite unconditionally, so the stored value is
non-decreasing only when the inbound `s` values themselves are. -/
theorem sequence_overwritten_by_frame (st : GatewayState) (f : Frame) (v : Int)
    (hs : f.s = some v) (hop : f.op ≠ some 9) (st' : GatewayState) (acts : List Action)
    (hok : handle_message st f = .ok (st', acts)) :
    st'.sequence = some v := by
  have h1 : (update_sequence st f).sequence = some v := by
    unfold update_sequence
    rw [hs]
  by_cases h0 : f.op = some 0
  · simp [handle_message, h0] at hok
    rw [← hok.1]
    exact h1
  by_cases h2 : f.op = some 1
  · simp [handle_message, h0, h2] at hok
    rw [← hok.1]
    simpa using h1
  by_cases h7 : f.op = some 7
  · simp [handle_message, h0, h2, h7] at hok
    rw [← hok.1]
    exact h1
  by_cases h10 : f.op = some 10
  · cases hdd : f.d_heartbeat_interval with
    | none => simp [handle_message, h0, h2, h7, hop, h10, hdd] at hok
    | some q =>
      by_cases ht : pyTruthy (update_sequence st f).session_id
      · simp [handle_message, h0, h2, h7, hop, h10, hdd, ht] at hok
        rw [← hok.1]
        simpa using h1
      · simp [handle_message, h0, h2, h7, hop, h10, hdd, ht] at hok
        rw [← hok.1]
        simpa using h1
  by_cases h11 : f.op = some 11
  · simp [handle_message, h0, h2, h7, hop, h10, h11] at hok
    rw [← hok.1]
    simpa using h1
  · simp [handle_message, h0, h2, h7, hop, h10, h11] at hok
    rw [← hok.1]
    exact h1

theorem sequence_overwritten_by_frame_instance :
    ∃ st' acts, handle_message sampleSessionState sampleRegressFrame = .ok (st', acts) ∧
      st'.sequence = some 3 := by
  have heq : handle_message sampleSessionState sampleRegressFrame =
      .ok ({ sampleSessionState with sequence := some 3 },
        [.dispatchEvent (some "MESSAGE_CREATE")]) := by
    simp [handle_message, sampleSessionState, sampleRegressFrame, update_sequence]
  exact ⟨_, _, heq,
    sequence_overwritten_by_frame sampleSessionState sampleRegressFrame 3 rfl
      (by decide) _ _ heq⟩

/-! ### `_heartbeat_loop` (gateway.py, lines 135-141)

Loop body order: while the socket is open — check `last_heartbeat_ack`
(break with only a log message if false), send a heartbeat, sleep the
interval.  One list element per iteration records whether an ack (op 11)
arrived during that iteration's sleep; the list ending models the socket
closing, which ends the `while`.  The break branch performs no `close()`:
it emits only the warning. -/

inductive HBAction where
  | sendHB
  | warnDead
  | closeConn
deriving DecidableEq

/-- Actions performed by `_heartbeat_loop`, given the initial
`last_heartbeat_ack` and the ack arrivals during each sleep. -/
def heartbeat_loop : Bool → List Bool → List HBAction
  | _, [] => []
  | lastAck, ackDuringSleep :: rest =>
    if lastAck then HBAction.sendHB :: heartbeat_loop ackDuringSleep rest
    else [HBAction.warnDead]

/-- Claim C2 counterexample: starting acknowledged, when no ack arrives during
the sleep after the first heartbeat send, the loop logs the dead-connection
warning and terminates — but it never closes the connection: no close action
occurs, so no teardown and no supervisor reconnect is triggered. -/
theorem heartbeat_missed_ack_no_teardown_cex :
    heartbeat_loop true [false, true] = [HBAction.sendHB, HBAction.warnDead] ∧
    HBAction.closeConn ∉ heartbeat_loop true [false, true] := by
  constructor
  · rfl
  · decide

/-- Claim C2 (amended): if no ack arrives during the sleep following a
heartbeat send, the loop logs the warning and terminates without sending any
further heartbeat — but it does not close the connection (no teardown, no
forced reconnect). -/
theorem heartbeat_missed_ack_stops_loop (pre rest : List Bool)
    (hpre : ∀ b ∈ pre, b = true) (hrest : rest ≠ []) :
    heartbeat_loop true (pre ++ false :: rest) =
      (pre.map fun _ => HBAction.sendHB) ++ [HBAction.sendHB, HBAction.warnDead] ∧
    HBAction.closeConn ∉ heartbeat_loop true (pre ++ false :: rest) := by
  induction pre with
  | nil =>
    cases rest with
    | nil => exact absurd rfl hrest
    | cons r rs =>
      have hstep : heartbeat_loop true ([] ++ false :: r :: rs) =
          [HBAction.sendHB, HBAction.warnDead] := rfl
      rw [hstep]
      exact ⟨by simp, by decide⟩
  | cons b bs ih =>
    have hb : b = true := hpre b (List.mem_cons_self b bs)
    have hbs : ∀ x ∈ bs, x = true := fun x hx => hpre x (List.mem_cons_of_mem b hx)
    obtain ⟨ih1, ih2⟩ := ih hbs
    subst hb
    have hstep : heartbeat_loop true ((true :: bs) ++ false :: rest) =
        HBAction.sendHB :: heartbeat_loop true (bs ++ false :: rest) := rfl
    constructor
    · rw [hstep, ih1]
      simp
    · rw [hstep]
      simp only [List.mem_cons]
      rintro (h | h)
      · cases h
      · exact ih2 h

theorem heartbeat_missed_ack_stops_loop_instance :
    heartbeat_loop true ([true] ++ false :: [true, false]) =
      ([true].map fun _ => HBAction.sendHB) ++ [HBAction.sendHB, HBAction.warnDead] ∧
    HBAction.closeConn ∉ heartbeat_loop true ([true] ++ false :: [true, false]) :=
  heartbeat_missed_ack_stops_loop [true] [true, false] (by decide) (by decide)

/-- Heartbeat send times: the loop body sends first and sleeps `interval`
afterwards, so an iteration entered at time `now` with `last_ack` true sends
at `now` and re-enters at `now + interval`. -/
def heartbeat_times (interval : ℚ) : ℚ → Bool → List Bool → List ℚ
  | _, _, [] => []
  | now, lastAck, ackDuringSleep :: rest =>
    if lastAck then now :: heartbeat_times interval (now + interval) ackDuringSleep rest
    else []

/-- Claim C3 counterexample: with `heartbeat_interval` 41250 ms (41.25 s), the
loop started at HELLO (relative time 0) sends its first heartbeat at time 0 —
it does not sleep the interval first, so a heartbeat is sent well before
41.25 s. -/
theorem heartbeat_first_send_immediate_cex :
    heartbeat_times (41250 / 1000) 0 true [true, true] =
      [0, 0 + 41250 / 1000] ∧ (0 : ℚ) < 41250 / 1000 := by
  constructor
  · rfl
  · norm_num

/-- Claim C3 (amended): the heartbeat loop sends its first heartbeat
immediately when it starts (time 0 relative to HELLO) and then sleeps the
interval between consecutive sends: while acks keep arriving, the k-th send
(0-based) happens at `t0 + k * interval`. -/
theorem heartbeat_send_schedule (interval : ℚ) (acks : List Bool)
    (hacks : ∀ b ∈ acks, b = true) :
    ∀ t0 : ℚ, heartbeat_times interval t0 true acks =
      (List.range acks.length).map (fun k : ℕ => t0 + (k : ℚ) * interval) := by
  induction acks with
  | nil => intro t0; rfl
  | cons b bs ih =>
    intro t0
    have hb : b = true := hacks b (List.mem_cons_self b bs)
    have hbs : ∀ x ∈ bs, x = true := fun x hx => hacks x (List.mem_cons_of_mem b hx)
    subst hb
    have hstep : heartbeat_times interval t0 true (true :: bs) =
        t0 :: heartbeat_times interval (t0 + interval) true bs := rfl
    rw [hstep, ih hbs (t0 + interval)]
    rw [List.length_cons, List.range_succ_eq_map, List.map_cons, List.map_map]
    congr 1
    · simp
    · apply List.map_congr_left
      intro k _
      simp only [Function.comp_apply, Nat.succ_eq_add_one]
      push_cast
      ring

theorem heartbeat_send_schedule_instance :
    heartbeat_times 2 0 true [true, true] =
      (List.range 2).map (fun k : ℕ => (0 : ℚ) + (k : ℚ) * 2) :=
  heartbeat_send_schedule 2 [true, true] (by decide) 0

/-! ### `connect` exception path (gateway.py, lines 39-49)

On any exception the handler increments `reconnect_attempts`; if still below
`max_reconnect_attempts` it sleeps `min(300, 2 ** attempts + time.time() % 1)`
seconds and re-raises, else it logs exhaustion and re-raises immediately.
No session field is touched. -/

/-- Line 43: `min(300, (2 ** self.reconnect_attempts) + (time.time() % 1))`,
with `jitter = time.time() % 1`. -/
def backoff_delay (attempt : ℕ) (jitter : ℚ) : ℚ := min 300 (2 ^ attempt + jitter)

/-- Effect of the `except` block: the updated state, and `some delay` when a
backoff sleep happens before the re-raise (`none` when attempts are
exhausted and the failure propagates immediately). -/
def gateway_connect_failure (st : GatewayState) (jitter : ℚ) : GatewayState × Option ℚ :=
  let st' := { st with reconnect_attempts := st.reconnect_attempts + 1 }
  if st'.reconnect_attempts < max_reconnect_attempts then
    (st', some (backoff_delay st'.reconnect_attempts jitter))
  else
    (st', none)

/-- Claim C6: after the k-th consecutive transport failure
(1 ≤ k < max_reconnect_attempts, counting from a fresh connection), the
backoff delay slept before retrying is `min(300, 2^k + jitter)`, which is
nonnegative and at most `min(300, 2^k + 1)` for jitter in [0, 1). -/
theorem reconnect_backoff_bound (st : GatewayState) (k : ℕ) (jitter : ℚ)
    (hst : st.reconnect_attempts = k - 1) (hk1 : 1 ≤ k)
    (hk5 : k < max_reconnect_attempts) (hj0 : 0 ≤ jitter) (hj1 : jitter < 1) :
    (gateway_connect_failure st jitter).2 = some (backoff_delay k jitter) ∧
    0 ≤ backoff_delay k jitter ∧
    backoff_delay k jitter ≤ min 300 (2 ^ k + 1) := by
  have hkk : st.reconnect_attempts + 1 = k := by omega
  refine ⟨?_, ?_, ?_⟩
  · rw [gateway_connect_failure]
    simp only [hkk]
    rw [if_pos hk5]
  · rw [backoff_delay]
    have h2 : (0 : ℚ) ≤ 2 ^ k := by positivity
    exact le_min (by norm_num) (by linarith)
  · rw [backoff_delay]
    exact min_le_min (le_refl 300) (by linarith)

theorem reconnect_backoff_bound_instance :
    (gateway_connect_failure { sampleSessionState with reconnect_attempts := 1 } (1/2)).2 =
      some (backoff_delay 2 (1/2)) ∧
    0 ≤ backoff_delay 2 (1/2) ∧
    backoff_delay 2 (1/2) ≤ min 300 (2 ^ 2 + 1) :=
  reconnect_backoff_bound { sampleSessionState with reconnect_attempts := 1 } 2 (1/2)
    rfl (by norm_num) (by norm_num [max_reconnect_attempts]) (by norm_num) (by norm_num)

/-- Claim C7 counterexample: a failure in the state with 4 prior attempts
reaches `max_reconnect_attempts = 5` — the exhausted branch — yet
`session_id` and `sequence` keep their values (`some "abc"`, `some 41`):
the code only logs and re-raises, it clears nothing. -/
theorem exhausted_reconnect_keeps_session_cex :
    gateway_connect_failure { sampleSessionState with reconnect_attempts := 4 } 0 =
      ({ sampleSessionState with reconnect_attempts := 5 }, none) ∧
    ({ sampleSessionState with reconnect_attempts := 5 } : GatewayState).session_id =
      some "abc" ∧
    ({ sampleSessionState with reconnect_attempts := 5 } : GatewayState).sequence =
      some 41 := by
  refine ⟨?_, rfl, rfl⟩
  rw [gateway_connect_failure]
  norm_num [sampleSessionState, max_reconnect_attempts]

/-- Claim C7 (amended): the connect exception path never touches session
state — whether backing off or exhausted (`none` delay exactly when the
incremented count reaches `max_reconnect_attempts`), `session_id` and
`sequence` are left unchanged; they are cleared only by INVALID SESSION. -/
theorem connect_failure_preserves_session (st : GatewayState) (jitter : ℚ) :
    (gateway_connect_failure st jitter).1.session_id = st.session_id ∧
    (gateway_connect_failure st jitter).1.sequence = st.sequence ∧
    ((gateway_connect_failure st jitter).2 = none ↔
      max_reconnect_attempts ≤ st.reconnect_attempts + 1) := by
  refine ⟨?_, ?_, ?_⟩
  · rw [gateway_connect_failure]
    split <;> rfl
  · rw [gateway_connect_failure]
    split <;> rfl
  · rw [gateway_connect_failure]
    by_cases h : st.reconnect_attempts + 1 < max_reconnect_attempts
    · rw [if_pos h]
      constructor
      · intro h1
        exact (Option.some_ne_none _ h1).elim
      · intro h1
        omega
    · rw [if_neg h]
      constructor
      · intro _
        omega
      · intro _
        rfl

/-! ### `connect` read loop (gateway.py, lines 30-49)

`async for msg in ws`: TEXT frames are parsed with `json.loads` and handed
to `_handle_message`; ERROR and CLOSE frames break the loop; a `json.loads`
failure or an exception inside `_handle_message` escapes the loop and is
caught by the `except` block, which runs the reconnect path. -/

inductive WSMsg where
  | text (parsed : Option Frame)
  | errorMsg
  | closeMsg
deriving DecidableEq

inductive LoopExit where
  | drained
  | errBreak
  | closeBreak
  | raised
deriving DecidableEq

/-- The frame-read loop: final state, accumulated actions, and how the loop
ended.  `text none` models a TEXT frame whose body is not valid JSON:
`json.loads` raises before `_handle_message` runs. -/
def process_messages (st : GatewayState) : List WSMsg → GatewayState × List Action × LoopExit
  | [] => (st, [], .drained)
  | .errorMsg :: _ => (st, [], .errBreak)
  | .closeMsg :: _ => (st, [], .closeBreak)
  | .text none :: _ => (st, [], .raised)
  | .text (some f) :: rest =>
    match handle_message st f with
    | .error stRaise => (stRaise, [], .raised)
    | .ok (st', acts) =>
      let r := process_messages st' rest
      (r.1, acts ++ r.2.1, r.2.2)

/-- One run of `connect` over a fixed inbound message script: on a normal
loop exit it returns; when an exception escaped the loop, the `except`
block increments the attempt counter and the failure propagates
(`raised = true`), after the backoff sleep `slept` when attempts remain. -/
structure ConnectResult where
  st : GatewayState
  actions : List Action
  raised : Bool
  slept : Option ℚ
deriving DecidableEq

def gateway_connect (st : GatewayState) (msgs : List WSMsg) (jitter : ℚ) : ConnectResult :=
  let st0 := { st with reconnect_attempts := 0 }
  let r := process_messages st0 msgs
  match r.2.2 with
  | .raised =>
    let fr := gateway_connect_failure r.1 jitter
    { st := fr.1, actions := r.2.1, raised := true, slept := fr.2 }
  | _ => { st := r.1, actions := r.2.1, raised := false, slept := none }

/-- Claim C8 counterexample: a TEXT frame that is not valid JSON is not
skipped — `json.loads` raises, the read loop ends before the following
frame (a valid op-11 frame) is handled, and the `except` block runs the
reconnect path: `raised = true`, the attempt counter becomes 1, and a
backoff sleep is scheduled.  The connection does not stay open. -/
theorem malformed_frame_triggers_reconnect_cex :
    gateway_connect initGatewayState
        [.text none, .text (some { op := some 11, d_heartbeat_interval := none,
                                   s := none, t := none })] 0 =
      { st := { initGatewayState with reconnect_attempts := 1 }, actions := [],
        raised := true, slept := some (backoff_delay 1 0) } := by
  rw [gateway_connect]
  norm_num [process_messages, gateway_connect_failure, initGatewayState, max_reconnect_attempts]

/-- Claim C8 (amended): a TEXT frame with an unknown (or missing) opcode is
skipped silently — no action, not even a log dispatch — and handling
continues with the next frame on the open connection; by contrast a TEXT
frame that is not valid JSON raises, ends the read loop at once and sends
`connect` into the reconnect path. -/
theorem unknown_opcode_skipped (st : GatewayState) (f : Frame) (rest : List WSMsg)
    (hop : ∀ n : Int, f.op = some n → n ≠ 0 ∧ n ≠ 1 ∧ n ≠ 7 ∧ n ≠ 9 ∧ n ≠ 10 ∧ n ≠ 11) :
    process_messages st (.text (some f) :: rest) =
      process_messages (update_sequence st f) rest ∧
    ∀ (st2 : GatewayState) (rest2 : List WSMsg) (j : ℚ),
      (gateway_connect st2 (.text none :: rest2) j).raised = true := by
  constructor
  · have hok : handle_message st f = .ok (update_sequence st f, []) := by
      rcases hcase : f.op with _ | n
      · simp [handle_message, hcase]
      · obtain ⟨n0, n1, n7, n9, n10, n11⟩ := hop n hcase
        simp [handle_message, hcase, n0, n1, n7, n9, n10, n11]
    rw [process_messages, hok]
    simp
  · intro st2 rest2 j
    rw [gateway_connect]
    rfl

theorem unknown_opcode_skipped_instance :
    process_messages sampleSessionState
        (.text (some { op := some 4, d_heartbeat_interval := none, s := some 50, t := none })
          :: [.closeMsg]) =
      process_messages
        (update_sequence sampleSessionState
          { op := some 4, d_heartbeat_interval := none, s := some 50, t := none })
        [.closeMsg] ∧
    ∀ (st2 : GatewayState) (rest2 : List WSMsg) (j : ℚ),
      (gateway_connect st2 (.text none :: rest2) j).raised = true :=
  unknown_opcode_skipped sampleSessionState
    { op := some 4, d_heartbeat_interval := none, s := some 50, t := none }
    [.closeMsg] (by intro n hn; simp_all; omega)

/-! ### RateLimiter configuration (utils.py lines 63-101, bot.py line 22)

`RateLimiter.__init__` stores `config or {}`; `wait_if_needed` resolves
`self.config.get('rate_limits', {}).get(bucket_name, {'requests': 5,
'window': 5})` with per-key defaults of 5.  `DiscordUser.__init__`
constructs `RateLimiter()` with no argument. -/

/-- One bucket entry of a `rate_limits` mapping; either key may be absent. -/
structure LimitEntry where
  requests : Option ℕ
  window : Option ℕ
deriving DecidableEq

/-- A Python config dict as the limiter sees it: only the `rate_limits` key
is ever read, and it may be absent. -/
structure PyConfig where
  rate_limits : Option (List (String × LimitEntry))
deriving DecidableEq

/-- `RateLimiter.__init__`: `self.config = config or {}` (utils.py line 96). -/
def rateLimiter_init (config : Option PyConfig) : PyConfig :=
  match config with
  | none => { rate_limits := none }
  | some c => c

/-- Limit resolution of `wait_if_needed` (utils.py lines 99-101). -/
def resolve_limits (config : PyConfig) (bucket : String) : ℕ × ℕ :=
  match (config.rate_limits.getD []).find? (fun p => p.1 == bucket) with
  | none => (5, 5)
  | some p => (p.2.requests.getD 5, p.2.window.getD 5)

/-- bot.py line 22: `self.rate_limiter = RateLimiter()` — constructed with no
argument, whatever config the bot itself was given. -/
def discordUser_rate_limiter (botConfig : PyConfig) : PyConfig :=
  rateLimiter_init none

/-- The `rate_limits` mapping of the default config written by `load_config`
(utils.py lines 70-73). -/
def load_config_default_rate_limits : List (String × LimitEntry) :=
  [("message", { requests := some 5, window := some 5 }),
   ("command", { requests := some 10, window := some 60 })]

/-- Claim C10: the bot constructs its `RateLimiter` without configuration, so
every bucket — in particular the `"message"` bucket used by
`DiscordUser.send_message` — resolves to the built-in default of 5 requests
per 5 seconds, for every bot config; the `rate_limits` mapping produced by
`load_config` is never consulted by the limiter. -/
theorem send_message_uses_default_limits (botConfig : PyConfig) (bucket : String) :
    resolve_limits (discordUser_rate_limiter botConfig) bucket = (5, 5) ∧
    discordUser_rate_limiter botConfig = { rate_limits := none } ∧
    resolve_limits { rate_limits := some load_config_default_rate_limits } "command" =
      (10, 60) :=
  ⟨rfl, rfl, rfl⟩

end Selfbot
